import Mathlib

/-!
A shallow embedding of the incremental synchronization engine
(`IncrementalSyncService.syncUserRepoActivity` and its helpers) of
the maakaf_home_backend repository.

Timestamps are modelled as integers (milliseconds since the epoch),
JavaScript numbers that can be `-Infinity` (the result of `Math.max()`
over an empty spread) as the inductive `JSNum`, optional chains
(`a?.b`) as `Option`, and the two effectful collaborators — the
watermark store (`SyncMetadataService.upsert`) and the persistence
sink (`cacheDataToMongoDB`) — as explicit fields of a `SyncEffects`
record describing what the call wrote.  The single GraphQL round-trip
of a sync call is modelled by passing in the environment's response
(`GraphQLOutcome`); the `queried` flag of `SyncEffects` records
whether the call issued that query at all.
-/

/-- A JavaScript number as produced by `Math.max`: either an ordinary
integer or `-Infinity` (the value of `Math.max()` with no arguments). -/
inductive JSNum where
  | negInf : JSNum
  | val : Int → JSNum
deriving DecidableEq, Repr

/-- Binary `Math.max` on `JSNum` (`-Infinity` is the identity). -/
def JSNum.jmax : JSNum → JSNum → JSNum
  | .negInf, b => b
  | a, .negInf => a
  | .val a, .val b => .val (max a b)

/-- `Math.max(...args)`: the fold of binary max over the argument list,
starting from `-Infinity`; in particular `jsMathMax [] = negInf`. -/
def jsMathMax (args : List JSNum) : JSNum :=
  args.foldl JSNum.jmax JSNum.negInf

/-- JavaScript `x || 0` on an optional stored number: `undefined`
(and a stored `0`, which is falsy) becomes `0`; `-Infinity` is truthy
and is kept. -/
def jsOr0 : Option JSNum → JSNum
  | none => JSNum.val 0
  | some JSNum.negInf => JSNum.negInf
  | some (JSNum.val n) => JSNum.val n

/-- JavaScript `n > w` where `w` may be `-Infinity`. -/
def jsGt (n : Int) (w : JSNum) : Bool :=
  match w with
  | .negInf => true
  | .val m => n > m

/-- One comment node of the GraphQL response (`comments.nodes[i]`):
`author { login }` may be null, `createdAt` is a timestamp. -/
structure CommentNode where
  author : Option String
  createdAt : Int
deriving DecidableEq, Repr

/-- One pull-request node (`pullRequests.nodes[i]`): `number`,
`author { login }`, `createdAt`, and inlined `comments?.nodes`. -/
structure PRNode where
  number : Int
  author : Option String
  createdAt : Int
  comments : Option (List CommentNode)
deriving DecidableEq, Repr

/-- One issue node (`issues.nodes[i]`), same shape as a PR node. -/
structure IssueNode where
  number : Int
  author : Option String
  createdAt : Int
  comments : Option (List CommentNode)
deriving DecidableEq, Repr

/-- One commit node of the default-branch history: `oid`, the chain
`author?.user?.login`, and `committedDate`. -/
structure CommitNode where
  oid : String
  authorLogin : Option String
  committedDate : Int
deriving DecidableEq, Repr

/-- The `repository` object of the GraphQL response.  Each node list
is optional, mirroring the optional chains
`repository.defaultBranchRef?.target?.history?.nodes`,
`repository.pullRequests?.nodes` and `repository.issues?.nodes`. -/
structure RawRepository where
  historyNodes : Option (List CommitNode)
  prNodes : Option (List PRNode)
  issueNodes : Option (List IssueNode)
deriving DecidableEq, Repr

/-- The outcome of the single GraphQL round-trip of a sync call:
either the response carried an `errors` array (with the message
`errors[0]?.message || 'Unknown error'` already extracted), or it
carried `data` whose `repository` field may be null. -/
inductive GraphQLOutcome where
  | errs : String → GraphQLOutcome
  | ok : Option RawRepository → GraphQLOutcome
deriving DecidableEq, Repr

/-- The five running counters (`totalItems` of the sync metadata). -/
structure Totals where
  commits : Nat
  pullRequests : Nat
  issues : Nat
  prComments : Nat
  issueComments : Nat
deriving DecidableEq, Repr

/-- The watermark record kept per `(username, repo)` key
(`LastSyncMetadata` / the `sync-metadata` document). -/
structure SyncMetadata where
  lastSyncDate : Int
  lastCommitSha : Option String
  lastPRNumber : Option JSNum
  lastIssueNumber : Option JSNum
  totalItems : Totals
deriving DecidableEq, Repr

/-- The value returned to the caller of `syncUserRepoActivity`. -/
structure SyncResult where
  commits : Nat
  pullRequests : Nat
  issues : Nat
  prComments : Nat
  issueComments : Nat
  isIncremental : Bool
  itemsFetched : Nat
deriving DecidableEq, Repr

/-- What `cacheDataToMongoDB` was asked to persist. -/
structure SinkPayload where
  commits : List CommitNode
  pullRequests : List PRNode
  issues : List IssueNode
  prComments : Nat
  issueComments : Nat
deriving DecidableEq, Repr

/-- The observable effects of one `syncUserRepoActivity` call:
whether the GraphQL query was issued, what (if anything) was handed
to the persistence sink, and what (if anything) was upserted into the
watermark store. -/
structure SyncEffects where
  queried : Bool
  sinkWrite : Option SinkPayload
  metadataWrite : Option SyncMetadata
deriving DecidableEq, Repr

/-- The configuration values the engine reads from `AppConfigService`:
the incremental-sync interval (hours) and the analysis horizon
(`analysisStartDate`, a timestamp). -/
structure Config where
  incrementalSyncIntervalHours : Int
  analysisStartDate : Int
deriving DecidableEq, Repr

/-! ### Activity Filter (the pure parts of `processAndCacheFullData`
and `processAndCacheIncrementalData`) -/

/-- Full-sync commit filter:
`commit.author?.user?.login === username && new Date(commit.committedDate) >= sixMonthsAgo`. -/
def fullUserCommits (username : String) (horizon : Int) (cs : List CommitNode) : List CommitNode :=
  cs.filter fun c => c.authorLogin == some username && decide (horizon ≤ c.committedDate)

/-- Full-sync PR filter:
`pr.author?.login === username && new Date(pr.createdAt) >= sixMonthsAgo`. -/
def fullUserPRs (username : String) (horizon : Int) (prs : List PRNode) : List PRNode :=
  prs.filter fun p => p.author == some username && decide (horizon ≤ p.createdAt)

/-- Full-sync issue filter. -/
def fullUserIssues (username : String) (horizon : Int) (iss : List IssueNode) : List IssueNode :=
  iss.filter fun i => i.author == some username && decide (horizon ≤ i.createdAt)

/-- Full-sync comment predicate:
`comment.author?.login === username && new Date(comment.createdAt) >= sixMonthsAgo`. -/
def commentMatchFull (username : String) (horizon : Int) (c : CommentNode) : Bool :=
  c.author == some username && decide (horizon ≤ c.createdAt)

/-- Full-sync PR-comment tally: `forEach` over ALL fetched PRs (not
just the user's own), counting matching comments. -/
def fullPRComments (username : String) (horizon : Int) (prs : List PRNode) : Nat :=
  (prs.map fun p => ((p.comments.getD []).filter (commentMatchFull username horizon)).length).sum

/-- Full-sync issue-comment tally over ALL fetched issues. -/
def fullIssueComments (username : String) (horizon : Int) (iss : List IssueNode) : Nat :=
  (iss.map fun i => ((i.comments.getD []).filter (commentMatchFull username horizon)).length).sum

/-- Incremental commit filter:
`commit.author?.user?.login === username && new Date(commit.committedDate) > lastSyncDate`. -/
def incUserCommits (username : String) (lastSyncDate : Int) (cs : List CommitNode) : List CommitNode :=
  cs.filter fun c => c.authorLogin == some username && decide (lastSyncDate < c.committedDate)

/-- Incremental PR filter (strict bound). -/
def incUserPRs (username : String) (lastSyncDate : Int) (prs : List PRNode) : List PRNode :=
  prs.filter fun p => p.author == some username && decide (lastSyncDate < p.createdAt)

/-- Incremental issue filter (strict bound). -/
def incUserIssues (username : String) (lastSyncDate : Int) (iss : List IssueNode) : List IssueNode :=
  iss.filter fun i => i.author == some username && decide (lastSyncDate < i.createdAt)

/-- Incremental comment predicate (strict bound). -/
def commentMatchInc (username : String) (lastSyncDate : Int) (c : CommentNode) : Bool :=
  c.author == some username && decide (lastSyncDate < c.createdAt)

/-- Incremental PR-comment tally over the PR list it is given. -/
def incPRComments (username : String) (lastSyncDate : Int) (prs : List PRNode) : Nat :=
  (prs.map fun p => ((p.comments.getD []).filter (commentMatchInc username lastSyncDate)).length).sum

/-- Incremental issue-comment tally over the issue list it is given. -/
def incIssueComments (username : String) (lastSyncDate : Int) (iss : List IssueNode) : Nat :=
  (iss.map fun i => ((i.comments.getD []).filter (commentMatchInc username lastSyncDate)).length).sum

/-- The five counts returned by `processAndCacheFullData`. -/
def fullCounts (username : String) (horizon : Int) (repo : RawRepository) : Totals :=
  { commits := (fullUserCommits username horizon (repo.historyNodes.getD [])).length
    pullRequests := (fullUserPRs username horizon (repo.prNodes.getD [])).length
    issues := (fullUserIssues username horizon (repo.issueNodes.getD [])).length
    prComments := fullPRComments username horizon (repo.prNodes.getD [])
    issueComments := fullIssueComments username horizon (repo.issueNodes.getD []) }

/-- What `processAndCacheFullData` hands to `cacheDataToMongoDB`. -/
def fullPayload (username : String) (horizon : Int) (repo : RawRepository) : SinkPayload :=
  { commits := fullUserCommits username horizon (repo.historyNodes.getD [])
    pullRequests := fullUserPRs username horizon (repo.prNodes.getD [])
    issues := fullUserIssues username horizon (repo.issueNodes.getD [])
    prComments := fullPRComments username horizon (repo.prNodes.getD [])
    issueComments := fullIssueComments username horizon (repo.issueNodes.getD []) }

/-- The five counts returned by `processAndCacheIncrementalData`,
applied to the already-selected new node lists. -/
def incCounts (username : String) (lastSyncDate : Int)
    (newCommits : List CommitNode) (newPRs : List PRNode) (newIssues : List IssueNode) : Totals :=
  { commits := (incUserCommits username lastSyncDate newCommits).length
    pullRequests := (incUserPRs username lastSyncDate newPRs).length
    issues := (incUserIssues username lastSyncDate newIssues).length
    prComments := incPRComments username lastSyncDate newPRs
    issueComments := incIssueComments username lastSyncDate newIssues }

/-- What `processAndCacheIncrementalData` hands to `cacheDataToMongoDB`. -/
def incPayload (username : String) (lastSyncDate : Int)
    (newCommits : List CommitNode) (newPRs : List PRNode) (newIssues : List IssueNode) : SinkPayload :=
  { commits := incUserCommits username lastSyncDate newCommits
    pullRequests := incUserPRs username lastSyncDate newPRs
    issues := incUserIssues username lastSyncDate newIssues
    prComments := incPRComments username lastSyncDate newPRs
    issueComments := incIssueComments username lastSyncDate newIssues }

/-! ### The "truly new" filters of `performIncrementalSync` -/

/-- `!lastSync.lastCommitSha || commit.oid !== lastSync.lastCommitSha`. -/
def commitShaDiffers (sha : Option String) (c : CommitNode) : Bool :=
  match sha with
  | none => true
  | some s => c.oid != s

/-- `newCommits`: commits whose oid differs from the stored marker. -/
def newCommitsOf (m : SyncMetadata) (cs : List CommitNode) : List CommitNode :=
  cs.filter (commitShaDiffers m.lastCommitSha)

/-- `newPRs`: `pr.number > (lastSync.lastPRNumber || 0)`. -/
def newPRsOf (m : SyncMetadata) (prs : List PRNode) : List PRNode :=
  prs.filter fun p => jsGt p.number (jsOr0 m.lastPRNumber)

/-- `newIssues`: `issue.number > (lastSync.lastIssueNumber || 0)`. -/
def newIssuesOf (m : SyncMetadata) (iss : List IssueNode) : List IssueNode :=
  iss.filter fun i => jsGt i.number (jsOr0 m.lastIssueNumber)

/-! ### The sync operations -/

/-- `lastPRNumber` written by a full sync:
`Math.max(...(repository.pullRequests?.nodes?.map(pr => pr.number) || [0]))`.
The `|| [0]` default fires only when the optional chain yields
`undefined`; an empty node array is truthy in JavaScript, so the
spread of an empty array reaches `Math.max` unchanged. -/
def fullLastPRNumber (repo : RawRepository) : JSNum :=
  jsMathMax (match repo.prNodes with
    | none => [JSNum.val 0]
    | some l => l.map fun p => JSNum.val p.number)

/-- `lastIssueNumber` written by a full sync, same shape. -/
def fullLastIssueNumber (repo : RawRepository) : JSNum :=
  jsMathMax (match repo.issueNodes with
    | none => [JSNum.val 0]
    | some l => l.map fun i => JSNum.val i.number)

/-- Sum of the five fields of a `Totals`, i.e.
`Object.values(results).reduce((sum, count) => sum + count, 0)`. -/
def Totals.sum5 (t : Totals) : Nat :=
  t.commits + t.pullRequests + t.issues + t.prComments + t.issueComments

/-- `performFullSync`: issues the query; on an `errors` response or a
null repository it throws before any write; otherwise it filters,
caches, upserts the new watermark, and returns the totals with
`itemsFetched` the sum of all five counts. -/
def performFullSync (cfg : Config) (now : Int) (username repoFullName : String)
    (response : GraphQLOutcome) : Except String SyncResult × SyncEffects :=
  match response with
  | .errs msg =>
      (.error ("GitHub GraphQL error: " ++ msg),
       { queried := true, sinkWrite := none, metadataWrite := none })
  | .ok none =>
      (.error ("Repository " ++ repoFullName ++ " not found"),
       { queried := true, sinkWrite := none, metadataWrite := none })
  | .ok (some repo) =>
      let results := fullCounts username cfg.analysisStartDate repo
      let meta : SyncMetadata :=
        { lastSyncDate := now
          lastCommitSha := ((repo.historyNodes.getD []).head?).map CommitNode.oid
          lastPRNumber := some (fullLastPRNumber repo)
          lastIssueNumber := some (fullLastIssueNumber repo)
          totalItems := results }
      (.ok { commits := results.commits
             pullRequests := results.pullRequests
             issues := results.issues
             prComments := results.prComments
             issueComments := results.issueComments
             isIncremental := false
             itemsFetched := results.sum5 },
       { queried := true
         sinkWrite := some (fullPayload username cfg.analysisStartDate repo)
         metadataWrite := some meta })

/-- `performIncrementalSync`: issues the query; on error or null
repository it throws before any write; otherwise it selects the truly
new nodes, counts and caches them, merges the counts additively into
the stored totals, and advances the watermark. -/
def performIncrementalSync (now : Int) (username repoFullName : String)
    (m : SyncMetadata) (response : GraphQLOutcome) : Except String SyncResult × SyncEffects :=
  match response with
  | .errs msg =>
      (.error ("GitHub GraphQL error: " ++ msg),
       { queried := true, sinkWrite := none, metadataWrite := none })
  | .ok none =>
      (.error ("Repository " ++ repoFullName ++ " not found"),
       { queried := true, sinkWrite := none, metadataWrite := none })
  | .ok (some repo) =>
      let newCommits := newCommitsOf m (repo.historyNodes.getD [])
      let newPRs := newPRsOf m (repo.prNodes.getD [])
      let newIssues := newIssuesOf m (repo.issueNodes.getD [])
      let newResults := incCounts username m.lastSyncDate newCommits newPRs newIssues
      let updatedTotals : Totals :=
        { commits := m.totalItems.commits + newResults.commits
          pullRequests := m.totalItems.pullRequests + newResults.pullRequests
          issues := m.totalItems.issues + newResults.issues
          prComments := m.totalItems.prComments + newResults.prComments
          issueComments := m.totalItems.issueComments + newResults.issueComments }
      let meta : SyncMetadata :=
        { lastSyncDate := now
          lastCommitSha :=
            match (newCommits.head?).map CommitNode.oid with
            | some s => some s
            | none => m.lastCommitSha
          lastPRNumber :=
            some (jsMathMax ((newPRs.map fun p => JSNum.val p.number) ++ [jsOr0 m.lastPRNumber]))
          lastIssueNumber :=
            some (jsMathMax ((newIssues.map fun i => JSNum.val i.number) ++ [jsOr0 m.lastIssueNumber]))
          totalItems := updatedTotals }
      (.ok { commits := updatedTotals.commits
             pullRequests := updatedTotals.pullRequests
             issues := updatedTotals.issues
             prComments := updatedTotals.prComments
             issueComments := updatedTotals.issueComments
             isIncremental := true
             itemsFetched := newResults.sum5 },
       { queried := true
         sinkWrite := some (incPayload username m.lastSyncDate newCommits newPRs newIssues)
         metadataWrite := some meta })

/-- `syncUserRepoActivity`: look up the watermark; with no record do a
full sync; with a fresh record (`cacheAge < intervalHours * 3600000`)
return the stored totals with no query and no write; otherwise do an
incremental sync. -/
def syncUserRepoActivity (cfg : Config) (now : Int) (username repoFullName : String)
    (lastSync : Option SyncMetadata) (response : GraphQLOutcome) :
    Except String SyncResult × SyncEffects :=
  match lastSync with
  | none => performFullSync cfg now username repoFullName response
  | some m =>
      if now - m.lastSyncDate < cfg.incrementalSyncIntervalHours * 60 * 60 * 1000 then
        (.ok { commits := m.totalItems.commits
               pullRequests := m.totalItems.pullRequests
               issues := m.totalItems.issues
               prComments := m.totalItems.prComments
               issueComments := m.totalItems.issueComments
               isIncremental := false
               itemsFetched := 0 },
         { queried := false, sinkWrite := none, metadataWrite := none })
      else
        performIncrementalSync now username repoFullName m response

/-- The watermark-store state after a call: the upserted record if the
call wrote one, otherwise the previous state. -/
def nextState (s : Option SyncMetadata) (out : Except String SyncResult × SyncEffects) :
    Option SyncMetadata :=
  match out.2.metadataWrite with
  | some m => some m
  | none => s

/-- The five counters of a returned `SyncResult`, as a `Totals`. -/
def totalsOfResult (r : SyncResult) : Totals :=
  { commits := r.commits
    pullRequests := r.pullRequests
    issues := r.issues
    prComments := r.prComments
    issueComments := r.issueComments }

/-- Componentwise order on the five counters. -/
def Totals.le (a b : Totals) : Prop :=
  a.commits ≤ b.commits ∧ a.pullRequests ≤ b.pullRequests ∧ a.issues ≤ b.issues ∧
    a.prComments ≤ b.prComments ∧ a.issueComments ≤ b.issueComments

/-! ### Concrete inputs used by witnesses and counterexamples -/

/-- A repository response whose node arrays are present but empty. -/
def repoEmptyNodes : RawRepository :=
  { historyNodes := some [], prNodes := some [], issueNodes := some [] }

/-- A repository response whose optional chains all yield `undefined`. -/
def repoAbsentNodes : RawRepository :=
  { historyNodes := none, prNodes := none, issueNodes := none }

/-- Configuration with a 4-hour incremental interval and horizon 0. -/
def cfgDemo : Config := { incrementalSyncIntervalHours := 4, analysisStartDate := 0 }

/-- Commits of the concrete scenario: three commits by `octocat`
inside the analysis window. -/
def demoCommit (i : Nat) : CommitNode :=
  { oid := toString i, authorLogin := some "octocat", committedDate := 10 + i }

/-- A comment by `octocat` inside the analysis window. -/
def demoComment : CommentNode := { author := some "octocat", createdAt := 12 }

/-- The single PR of the concrete scenario, by `octocat`, with two
matching comments. -/
def demoPR : PRNode :=
  { number := 1, author := some "octocat", createdAt := 11,
    comments := some [demoComment, demoComment] }

/-- The full-sync response of the concrete scenario: 3 commits by
`octocat`, 1 PR by `octocat` with 2 matching comments, 0 issues. -/
def demoRepo : RawRepository :=
  { historyNodes := some [demoCommit 0, demoCommit 1, demoCommit 2],
    prNodes := some [demoPR], issueNodes := some [] }

/-- A stored watermark used by witnesses: synced at instant 100 with
totals (3,1,0,2,0). -/
def demoMeta : SyncMetadata :=
  { lastSyncDate := 100, lastCommitSha := some "2",
    lastPRNumber := some (JSNum.val 1), lastIssueNumber := some (JSNum.val 0),
    totalItems := { commits := 3, pullRequests := 1, issues := 0, prComments := 2, issueComments := 0 } }

/-! ### Claims -/

/-- C1: a full sync whose response carries EMPTY pull-request and
issue node arrays writes `-Infinity` — the value of `Math.max()` over
an empty spread — into both number watermarks, because the `|| [0]`
default only fires when the node array is `undefined` (an empty array
is truthy); the "none seen" sentinel `0` is written only in the
`undefined` case.  This contradicts the claim that the watermark is
never the result of a maximum over an empty collection. -/
theorem emptyWindow_fullSync_writes_negInf_watermark :
    ((syncUserRepoActivity cfgDemo 100 "u" "o/r" none (.ok (some repoEmptyNodes))).2.metadataWrite.map
        fun m => (m.lastPRNumber, m.lastIssueNumber)) =
      some (some JSNum.negInf, some JSNum.negInf) ∧
    ((syncUserRepoActivity cfgDemo 100 "u" "o/r" none (.ok (some repoAbsentNodes))).2.metadataWrite.map
        fun m => (m.lastPRNumber, m.lastIssueNumber)) =
      some (some (JSNum.val 0), some (JSNum.val 0)) := by
  constructor <;> rfl

/-- C3: when a watermark exists and `now - lastSyncDate` is strictly
below the configured interval, the call returns exactly the stored
totals with `isIncremental = false` and `itemsFetched = 0`, issues no
query, and writes neither the sink nor the watermark store. -/
theorem freshness_short_circuit (cfg : Config) (now : Int) (u r : String)
    (m : SyncMetadata) (resp : GraphQLOutcome)
    (hfresh : now - m.lastSyncDate < cfg.incrementalSyncIntervalHours * 60 * 60 * 1000) :
    syncUserRepoActivity cfg now u r (some m) resp =
      (Except.ok { commits := m.totalItems.commits
                   pullRequests := m.totalItems.pullRequests
                   issues := m.totalItems.issues
                   prComments := m.totalItems.prComments
                   issueComments := m.totalItems.issueComments
                   isIncremental := false
                   itemsFetched := 0 },
       { queried := false, sinkWrite := none, metadataWrite := none }) := by
  simp [syncUserRepoActivity, hfresh]

/-- Witness for C3 at a concrete fresh watermark (age 0 < 4 h). -/
theorem freshness_short_circuit_witness :
    syncUserRepoActivity cfgDemo 100 "octocat" "octo/demo" (some demoMeta) (.errs "boom") =
      (Except.ok { commits := 3, pullRequests := 1, issues := 0, prComments := 2,
                   issueComments := 0, isIncremental := false, itemsFetched := 0 },
       { queried := false, sinkWrite := none, metadataWrite := none }) :=
  freshness_short_circuit cfgDemo 100 "octocat" "octo/demo" demoMeta (.errs "boom") (by decide)

/-- C8 counterexample: in the concrete first-full-sync scenario
(3 commits, 1 PR with 2 matching comments, 0 issues, all by
`octocat`), the call does NOT return `itemsFetched = 4`: the code
sums ALL five values of the results object, comments included. -/
theorem full_sync_scenario_itemsFetched_ne_four :
    (syncUserRepoActivity cfgDemo 100 "octocat" "octo/demo" none (.ok (some demoRepo))).1 ≠
      Except.ok { commits := 3, pullRequests := 1, issues := 0, prComments := 2,
                  issueComments := 0, isIncremental := false, itemsFetched := 4 } := by
  intro h
  simp only [syncUserRepoActivity, performFullSync] at h
  exact absurd (Except.ok.inj h) (by decide)

/-- C8 amended: in that scenario the call returns the totals
`{commits := 3, pullRequests := 1, issues := 0, prComments := 2,
issueComments := 0}` with `isIncremental = false` and
`itemsFetched = 6`, the sum of all five counters (comments are
included in the item count). -/
theorem full_sync_scenario_itemsFetched_eq_six :
    (syncUserRepoActivity cfgDemo 100 "octocat" "octo/demo" none (.ok (some demoRepo))).1 =
      Except.ok { commits := 3, pullRequests := 1, issues := 0, prComments := 2,
                  issueComments := 0, isIncremental := false, itemsFetched := 6 } := by
  rfl

/-- Helper: a list-of-counts sum is at least any single count. -/
lemma one_le_sum_of_mem {α : Type} (f : α → Nat) (l : List α) (a : α)
    (ha : a ∈ l) (h1 : 1 ≤ f a) : 1 ≤ (l.map f).sum :=
  le_trans h1 (List.single_le_sum (fun _ _ => Nat.zero_le _) _ (List.mem_map_of_mem f ha))

/-- Concrete nodes timestamped exactly at the bound, for witnesses. -/
def edgeCommit : CommitNode := { oid := "e", authorLogin := some "ann", committedDate := 5 }

/-- Concrete PR timestamped exactly at the bound. -/
def edgePR : PRNode := { number := 7, author := some "ann", createdAt := 5, comments := none }

/-- Concrete issue timestamped exactly at the bound. -/
def edgeIssue : IssueNode := { number := 8, author := some "ann", createdAt := 5, comments := none }

/-- Concrete comment timestamped exactly at the bound. -/
def edgeComment : CommentNode := { author := some "ann", createdAt := 5 }

/-- C4: the full-sync filters use an inclusive bound and the
incremental filters a strict one — an item authored by `username` and
timestamped exactly at the bound is kept by every full-sync filter
and dropped by every incremental filter. -/
theorem boundary_timestamp_inclusion (u : String) (t : Int) (c : CommitNode) (p : PRNode)
    (i : IssueNode) (cm : CommentNode)
    (hc : c.authorLogin = some u) (hcd : c.committedDate = t)
    (hp : p.author = some u) (hpd : p.createdAt = t)
    (hi : i.author = some u) (hid : i.createdAt = t)
    (hm : cm.author = some u) (hmd : cm.createdAt = t) :
    (c ∈ fullUserCommits u t [c] ∧ c ∉ incUserCommits u t [c]) ∧
    (p ∈ fullUserPRs u t [p] ∧ p ∉ incUserPRs u t [p]) ∧
    (i ∈ fullUserIssues u t [i] ∧ i ∉ incUserIssues u t [i]) ∧
    (commentMatchFull u t cm = true ∧ commentMatchInc u t cm = false) := by
  simp [fullUserCommits, incUserCommits, fullUserPRs, incUserPRs, fullUserIssues,
        incUserIssues, commentMatchFull, commentMatchInc, List.mem_filter,
        hc, hcd, hp, hpd, hi, hid, hm, hmd]

/-- Witness for C4 at concrete boundary nodes (timestamp 5, user `ann`). -/
theorem boundary_timestamp_inclusion_witness :
    (edgeCommit ∈ fullUserCommits "ann" 5 [edgeCommit] ∧
      edgeCommit ∉ incUserCommits "ann" 5 [edgeCommit]) ∧
    (edgePR ∈ fullUserPRs "ann" 5 [edgePR] ∧ edgePR ∉ incUserPRs "ann" 5 [edgePR]) ∧
    (edgeIssue ∈ fullUserIssues "ann" 5 [edgeIssue] ∧
      edgeIssue ∉ incUserIssues "ann" 5 [edgeIssue]) ∧
    (commentMatchFull "ann" 5 edgeComment = true ∧
      commentMatchInc "ann" 5 edgeComment = false) :=
  boundary_timestamp_inclusion "ann" 5 edgeCommit edgePR edgeIssue edgeComment
    rfl rfl rfl rfl rfl rfl rfl rfl

/-- C5: in an incremental sync an item is counted as new only under
the watermark comparison — a counted commit is strictly newer than
`lastSyncDate` AND (when a marker is stored) has a different oid; a
counted PR or issue passed the `number > (stored || 0)` filter. -/
theorem incremental_newness_watermark (u : String) (m : SyncMetadata)
    (cs : List CommitNode) (prs : List PRNode) (iss : List IssueNode) :
    (∀ c ∈ incUserCommits u m.lastSyncDate (newCommitsOf m cs),
        m.lastSyncDate < c.committedDate ∧ ∀ s, m.lastCommitSha = some s → c.oid ≠ s) ∧
    (∀ p ∈ incUserPRs u m.lastSyncDate (newPRsOf m prs),
        jsGt p.number (jsOr0 m.lastPRNumber) = true) ∧
    (∀ i ∈ incUserIssues u m.lastSyncDate (newIssuesOf m iss),
        jsGt i.number (jsOr0 m.lastIssueNumber) = true) := by
  refine ⟨?_, ?_, ?_⟩
  · intro c hcmem
    rw [incUserCommits, List.mem_filter] at hcmem
    obtain ⟨hmem1, hpred⟩ := hcmem
    simp only [Bool.and_eq_true, decide_eq_true_eq] at hpred
    refine ⟨hpred.2, ?_⟩
    intro s hs
    rw [newCommitsOf, List.mem_filter] at hmem1
    have h2 := hmem1.2
    rw [hs] at h2
    simpa [commitShaDiffers] using h2
  · intro p hpm
    rw [incUserPRs, List.mem_filter] at hpm
    have h1 := hpm.1
    rw [newPRsOf, List.mem_filter] at h1
    exact h1.2
  · intro i him
    rw [incUserIssues, List.mem_filter] at him
    have h1 := him.1
    rw [newIssuesOf, List.mem_filter] at h1
    exact h1.2

/-- A commit strictly newer than `demoMeta.lastSyncDate` with a fresh
oid, for the C5 witness. -/
def freshCommit : CommitNode := { oid := "zz", authorLogin := some "octocat", committedDate := 150 }

/-- Witness for C5: the counted concrete commit satisfies the strict
time bound (first component of the theorem's conclusion). -/
theorem incremental_newness_watermark_witness :
    demoMeta.lastSyncDate < freshCommit.committedDate :=
  ((incremental_newness_watermark "octocat" demoMeta [freshCommit] [] []).1
    freshCommit (by decide)).1

/-- C9: the comment tallies sum over every PR/issue in the raw set
they are given — a qualifying comment by `username` on a PR or issue
authored by someone else still counts, for both the inclusive
(full-sync) and the strict (incremental) bound. -/
theorem comments_counted_on_others_items (u : String) (bound : Int) :
    (∀ (prs : List PRNode) (p : PRNode) (c : CommentNode),
        p ∈ prs → c ∈ p.comments.getD [] → c.author = some u → bound ≤ c.createdAt →
        p.author ≠ some u → 1 ≤ fullPRComments u bound prs) ∧
    (∀ (iss : List IssueNode) (i : IssueNode) (c : CommentNode),
        i ∈ iss → c ∈ i.comments.getD [] → c.author = some u → bound ≤ c.createdAt →
        i.author ≠ some u → 1 ≤ fullIssueComments u bound iss) ∧
    (∀ (prs : List PRNode) (p : PRNode) (c : CommentNode),
        p ∈ prs → c ∈ p.comments.getD [] → c.author = some u → bound < c.createdAt →
        p.author ≠ some u → 1 ≤ incPRComments u bound prs) ∧
    (∀ (iss : List IssueNode) (i : IssueNode) (c : CommentNode),
        i ∈ iss → c ∈ i.comments.getD [] → c.author = some u → bound < c.createdAt →
        i.author ≠ some u → 1 ≤ incIssueComments u bound iss) := by
  refine ⟨?_, ?_, ?_, ?_⟩ <;> intro l x c hx hc hca hct _
  · refine one_le_sum_of_mem _ _ _ hx ?_
    have : c ∈ (x.comments.getD []).filter (commentMatchFull u bound) :=
      List.mem_filter.mpr ⟨hc, by simp [commentMatchFull, hca, hct]⟩
    exact List.length_pos.mpr (List.ne_nil_of_mem this)
  · refine one_le_sum_of_mem _ _ _ hx ?_
    have : c ∈ (x.comments.getD []).filter (commentMatchFull u bound) :=
      List.mem_filter.mpr ⟨hc, by simp [commentMatchFull, hca, hct]⟩
    exact List.length_pos.mpr (List.ne_nil_of_mem this)
  · refine one_le_sum_of_mem _ _ _ hx ?_
    have : c ∈ (x.comments.getD []).filter (commentMatchInc u bound) :=
      List.mem_filter.mpr ⟨hc, by simp [commentMatchInc, hca, hct]⟩
    exact List.length_pos.mpr (List.ne_nil_of_mem this)
  · refine one_le_sum_of_mem _ _ _ hx ?_
    have : c ∈ (x.comments.getD []).filter (commentMatchInc u bound) :=
      List.mem_filter.mpr ⟨hc, by simp [commentMatchInc, hca, hct]⟩
    exact List.length_pos.mpr (List.ne_nil_of_mem this)

/-- A PR authored by `bob` carrying a qualifying comment by `ann`,
for the C9 witness. -/
def othersPR : PRNode :=
  { number := 3, author := some "bob", createdAt := 9,
    comments := some [{ author := some "ann", createdAt := 9 }] }

/-- Witness for C9: the comment by `ann` on `bob`'s PR is counted. -/
theorem comments_counted_on_others_items_witness :
    1 ≤ fullPRComments "ann" 9 [othersPR] :=
  (comments_counted_on_others_items "ann" 9).1 [othersPR] othersPR
    { author := some "ann", createdAt := 9 }
    (by decide) (by decide) rfl (by decide) (by decide)

/-- C10: incremental comment tallies run only over the PRs/issues
whose number strictly exceeds the stored watermark.  A PR (or issue)
at or below the watermark is excluded from `newPRs`/`newIssues`, and
the whole incremental sync result is unchanged by its presence — its
comments, however recent, are never added. -/
theorem incremental_comments_ignore_old_items (u : String) (now : Int) (r : String)
    (m : SyncMetadata) (p : PRNode) (prs : List PRNode) (i : IssueNode) (iss : List IssueNode)
    (hp : jsGt p.number (jsOr0 m.lastPRNumber) = false)
    (hi : jsGt i.number (jsOr0 m.lastIssueNumber) = false) :
    p ∉ newPRsOf m (p :: prs) ∧
    incPRComments u m.lastSyncDate (newPRsOf m (p :: prs)) =
      incPRComments u m.lastSyncDate (newPRsOf m prs) ∧
    i ∉ newIssuesOf m (i :: iss) ∧
    incIssueComments u m.lastSyncDate (newIssuesOf m (i :: iss)) =
      incIssueComments u m.lastSyncDate (newIssuesOf m iss) ∧
    ∀ hn : Option (List CommitNode),
      performIncrementalSync now u r m
          (.ok (some { historyNodes := hn, prNodes := some (p :: prs),
                       issueNodes := some (i :: iss) })) =
        performIncrementalSync now u r m
          (.ok (some { historyNodes := hn, prNodes := some prs, issueNodes := some iss })) := by
  have e1 : newPRsOf m (p :: prs) = newPRsOf m prs := by
    rw [newPRsOf, newPRsOf, List.filter_cons_of_neg (by simp [hp])]
  have e2 : newIssuesOf m (i :: iss) = newIssuesOf m iss := by
    rw [newIssuesOf, newIssuesOf, List.filter_cons_of_neg (by simp [hi])]
  refine ⟨?_, by rw [e1], ?_, by rw [e2], ?_⟩
  · intro hmem
    rw [newPRsOf, List.mem_filter] at hmem
    rw [hp] at hmem
    exact absurd hmem.2 (by simp)
  · intro hmem
    rw [newIssuesOf, List.mem_filter] at hmem
    rw [hi] at hmem
    exact absurd hmem.2 (by simp)
  · intro hn
    simp only [performIncrementalSync, Option.getD, e1, e2]

/-- An old PR (number at the watermark) with a recent comment by
`octocat`, for the C10 witness. -/
def oldPRWithComment : PRNode :=
  { number := 1, author := some "bob", createdAt := 200,
    comments := some [{ author := some "octocat", createdAt := 200 }] }

/-- An old issue (number at the watermark) with a recent comment, for
the C10 witness. -/
def oldIssueWithComment : IssueNode :=
  { number := 0, author := some "bob", createdAt := 200,
    comments := some [{ author := some "octocat", createdAt := 200 }] }

/-- Witness for C10: with `demoMeta`'s watermarks (PR 1, issue 0), the
old PR and old issue are excluded from the new-item sets. -/
theorem incremental_comments_ignore_old_items_witness :
    oldPRWithComment ∉ newPRsOf demoMeta [oldPRWithComment] ∧
    oldIssueWithComment ∉ newIssuesOf demoMeta [oldIssueWithComment] :=
  ⟨(incremental_comments_ignore_old_items "octocat" 200 "o/r" demoMeta
      oldPRWithComment [] oldIssueWithComment [] (by decide) (by decide)).1,
   (incremental_comments_ignore_old_items "octocat" 200 "o/r" demoMeta
      oldPRWithComment [] oldIssueWithComment [] (by decide) (by decide)).2.2.1⟩

/-- C6: an upstream `errors` response, or a null `repository`, makes
the call fail before any write: the error carries the upstream
message (or reports the unresolved repository), and neither the
persistence sink nor the watermark store is touched, on the
first-sync path and on the stale-incremental path alike; the
watermark state is unchanged. -/
theorem upstream_error_no_write (cfg : Config) (now : Int) (u r msg : String)
    (m : SyncMetadata)
    (hstale : ¬ (now - m.lastSyncDate < cfg.incrementalSyncIntervalHours * 60 * 60 * 1000)) :
    (syncUserRepoActivity cfg now u r none (.errs msg) =
      (.error ("GitHub GraphQL error: " ++ msg),
       { queried := true, sinkWrite := none, metadataWrite := none })) ∧
    (syncUserRepoActivity cfg now u r none (.ok none) =
      (.error ("Repository " ++ r ++ " not found"),
       { queried := true, sinkWrite := none, metadataWrite := none })) ∧
    (syncUserRepoActivity cfg now u r (some m) (.errs msg) =
      (.error ("GitHub GraphQL error: " ++ msg),
       { queried := true, sinkWrite := none, metadataWrite := none })) ∧
    (syncUserRepoActivity cfg now u r (some m) (.ok none) =
      (.error ("Repository " ++ r ++ " not found"),
       { queried := true, sinkWrite := none, metadataWrite := none })) ∧
    nextState none (syncUserRepoActivity cfg now u r none (.errs msg)) = none ∧
    nextState (some m) (syncUserRepoActivity cfg now u r (some m) (.errs msg)) = some m ∧
    nextState (some m) (syncUserRepoActivity cfg now u r (some m) (.ok none)) = some m := by
  have h3 : syncUserRepoActivity cfg now u r (some m) (.errs msg) =
      (.error ("GitHub GraphQL error: " ++ msg),
       { queried := true, sinkWrite := none, metadataWrite := none }) := by
    simp [syncUserRepoActivity, performIncrementalSync, hstale]
  have h4 : syncUserRepoActivity cfg now u r (some m) (.ok none) =
      (.error ("Repository " ++ r ++ " not found"),
       { queried := true, sinkWrite := none, metadataWrite := none }) := by
    simp [syncUserRepoActivity, performIncrementalSync, hstale]
  refine ⟨rfl, rfl, h3, h4, rfl, ?_, ?_⟩
  · rw [h3]; rfl
  · rw [h4]; rfl

/-- Witness for C6 at a concrete stale watermark (age exactly 4 h). -/
theorem upstream_error_no_write_witness :
    syncUserRepoActivity cfgDemo 14400100 "octocat" "octo/demo" (some demoMeta)
        (.errs "API rate limit exceeded") =
      (.error ("GitHub GraphQL error: " ++ "API rate limit exceeded"),
       { queried := true, sinkWrite := none, metadataWrite := none }) :=
  (upstream_error_no_write cfgDemo 14400100 "octocat" "octo/demo"
    "API rate limit exceeded" demoMeta (by decide)).2.2.1

/-- A successful call returns exactly the totals held by the
watermark state it leaves behind: the full-sync and incremental paths
write a record whose `totalItems` are the returned counters, and the
fresh path returns the stored counters unchanged. -/
lemma sync_ok_next_totals (cfg : Config) (now : Int) (u r : String)
    (s : Option SyncMetadata) (resp : GraphQLOutcome) (res : SyncResult)
    (h : (syncUserRepoActivity cfg now u r s resp).1 = .ok res) :
    ∃ m', nextState s (syncUserRepoActivity cfg now u r s resp) = some m' ∧
      totalsOfResult res = m'.totalItems := by
  cases s with
  | none =>
    cases resp with
    | errs msg => exact absurd h (by simp [syncUserRepoActivity, performFullSync])
    | ok orepo =>
      cases orepo with
      | none => exact absurd h (by simp [syncUserRepoActivity, performFullSync])
      | some repo =>
        refine ⟨_, rfl, ?_⟩
        have h2 : res = _ := (Except.ok.inj h).symm
        rw [h2]
        rfl
  | some m =>
    by_cases hfresh : now - m.lastSyncDate < cfg.incrementalSyncIntervalHours * 60 * 60 * 1000
    · have hcall : syncUserRepoActivity cfg now u r (some m) resp =
          (Except.ok { commits := m.totalItems.commits
                       pullRequests := m.totalItems.pullRequests
                       issues := m.totalItems.issues
                       prComments := m.totalItems.prComments
                       issueComments := m.totalItems.issueComments
                       isIncremental := false
                       itemsFetched := 0 },
           { queried := false, sinkWrite := none, metadataWrite := none }) := by
        simp [syncUserRepoActivity, hfresh]
      rw [hcall] at h ⊢
      refine ⟨m, rfl, ?_⟩
      have h2 : res = _ := (Except.ok.inj h).symm
      rw [h2]
      rfl
    · have hcall : syncUserRepoActivity cfg now u r (some m) resp =
          performIncrementalSync now u r m resp := by
        simp [syncUserRepoActivity, hfresh]
      rw [hcall] at h ⊢
      cases resp with
      | errs msg => exact absurd h (by simp [performIncrementalSync])
      | ok orepo =>
        cases orepo with
        | none => exact absurd h (by simp [performIncrementalSync])
        | some repo =>
          refine ⟨_, rfl, ?_⟩
          have h2 : res = _ := (Except.ok.inj h).symm
          rw [h2]
          rfl

/-- A successful call from an existing watermark never returns totals
below the stored ones: the fresh path echoes them and the incremental
path adds non-negative new counts. -/
lemma sync_ok_ge (cfg : Config) (now : Int) (u r : String) (m : SyncMetadata)
    (resp : GraphQLOutcome) (res : SyncResult)
    (h : (syncUserRepoActivity cfg now u r (some m) resp).1 = .ok res) :
    Totals.le m.totalItems (totalsOfResult res) := by
  by_cases hfresh : now - m.lastSyncDate < cfg.incrementalSyncIntervalHours * 60 * 60 * 1000
  · have hcall : syncUserRepoActivity cfg now u r (some m) resp =
        (Except.ok { commits := m.totalItems.commits
                     pullRequests := m.totalItems.pullRequests
                     issues := m.totalItems.issues
                     prComments := m.totalItems.prComments
                     issueComments := m.totalItems.issueComments
                     isIncremental := false
                     itemsFetched := 0 },
         { queried := false, sinkWrite := none, metadataWrite := none }) := by
      simp [syncUserRepoActivity, hfresh]
    rw [hcall] at h
    have h2 : res = _ := (Except.ok.inj h).symm
    rw [h2]
    exact ⟨le_refl _, le_refl _, le_refl _, le_refl _, le_refl _⟩
  · have hcall : syncUserRepoActivity cfg now u r (some m) resp =
        performIncrementalSync now u r m resp := by
      simp [syncUserRepoActivity, hfresh]
    rw [hcall] at h
    cases resp with
    | errs msg => exact absurd h (by simp [performIncrementalSync])
    | ok orepo =>
      cases orepo with
      | none => exact absurd h (by simp [performIncrementalSync])
      | some repo =>
        have h2 : res = _ := (Except.ok.inj h).symm
        rw [h2]
        exact ⟨Nat.le_add_right _ _, Nat.le_add_right _ _, Nat.le_add_right _ _,
               Nat.le_add_right _ _, Nat.le_add_right _ _⟩

/-- C2: across two consecutive successful sequential calls for the
same key — the second starting from the watermark state the first
left behind — each of the five returned totals does not decrease. -/
theorem totals_monotone_across_syncs (cfg : Config) (now1 now2 : Int) (u r : String)
    (s : Option SyncMetadata) (resp1 resp2 : GraphQLOutcome) (r1 r2 : SyncResult)
    (h1 : (syncUserRepoActivity cfg now1 u r s resp1).1 = .ok r1)
    (h2 : (syncUserRepoActivity cfg now2 u r
        (nextState s (syncUserRepoActivity cfg now1 u r s resp1)) resp2).1 = .ok r2) :
    Totals.le (totalsOfResult r1) (totalsOfResult r2) := by
  obtain ⟨m', hst, heq⟩ := sync_ok_next_totals cfg now1 u r s resp1 r1 h1
  rw [hst] at h2
  rw [heq]
  exact sync_ok_ge cfg now2 u r m' resp2 r2 h2

/-- Witness for C2: a concrete full sync followed by a fresh cache
hit; the returned totals (3,1,0,2,0) do not decrease. -/
theorem totals_monotone_across_syncs_witness :
    Totals.le
      (totalsOfResult { commits := 3, pullRequests := 1, issues := 0, prComments := 2,
                        issueComments := 0, isIncremental := false, itemsFetched := 6 })
      (totalsOfResult { commits := 3, pullRequests := 1, issues := 0, prComments := 2,
                        issueComments := 0, isIncremental := false, itemsFetched := 0 }) :=
  totals_monotone_across_syncs cfgDemo 100 100 "octocat" "octo/demo" none
    (.ok (some demoRepo)) (.errs "down") _ _ rfl rfl

/-- If every fetched PR number is at or below the watermark, the
`newPRs` filter selects nothing. -/
lemma newPRsOf_eq_nil (m : SyncMetadata) (prs : List PRNode)
    (h : ∀ p ∈ prs, jsGt p.number (jsOr0 m.lastPRNumber) = false) :
    newPRsOf m prs = [] := by
  rw [newPRsOf, List.filter_eq_nil_iff]
  intro p hp
  simp [h p hp]

/-- If every fetched issue number is at or below the watermark, the
`newIssues` filter selects nothing. -/
lemma newIssuesOf_eq_nil (m : SyncMetadata) (iss : List IssueNode)
    (h : ∀ i ∈ iss, jsGt i.number (jsOr0 m.lastIssueNumber) = false) :
    newIssuesOf m iss = [] := by
  rw [newIssuesOf, List.filter_eq_nil_iff]
  intro i hi
  simp [h i hi]

/-- If no fetched commit is strictly newer than `lastSyncDate`, the
strict incremental time filter drops them all, whatever their oids. -/
lemma incUserCommits_of_stale_eq_nil (u : String) (m : SyncMetadata) (cs : List CommitNode)
    (h : ∀ c ∈ cs, c.committedDate ≤ m.lastSyncDate) :
    incUserCommits u m.lastSyncDate (newCommitsOf m cs) = [] := by
  rw [incUserCommits, List.filter_eq_nil_iff]
  intro c hc
  have hle := h c (List.mem_of_mem_filter hc)
  simp only [Bool.and_eq_true, decide_eq_true_eq, not_and]
  intro _
  omega

/-- An incremental sync whose response holds no activity newer than
the stored watermarks finds zero new items of every kind and returns
the stored totals unchanged. -/
lemma incremental_no_new_items (now : Int) (u r : String) (m : SyncMetadata)
    (repo : RawRepository)
    (hc : ∀ c ∈ repo.historyNodes.getD [], c.committedDate ≤ m.lastSyncDate)
    (hp : ∀ p ∈ repo.prNodes.getD [], jsGt p.number (jsOr0 m.lastPRNumber) = false)
    (hi : ∀ i ∈ repo.issueNodes.getD [], jsGt i.number (jsOr0 m.lastIssueNumber) = false) :
    (performIncrementalSync now u r m (.ok (some repo))).1 =
      .ok { commits := m.totalItems.commits
            pullRequests := m.totalItems.pullRequests
            issues := m.totalItems.issues
            prComments := m.totalItems.prComments
            issueComments := m.totalItems.issueComments
            isIncremental := true
            itemsFetched := 0 } := by
  have e1 : newPRsOf m (repo.prNodes.getD []) = [] := newPRsOf_eq_nil m _ hp
  have e2 : newIssuesOf m (repo.issueNodes.getD []) = [] := newIssuesOf_eq_nil m _ hi
  have e3 : incUserCommits u m.lastSyncDate (newCommitsOf m (repo.historyNodes.getD [])) = [] :=
    incUserCommits_of_stale_eq_nil u m _ hc
  simp [performIncrementalSync, incCounts, e1, e2, e3, incUserPRs, incUserIssues,
        incPRComments, incIssueComments, Totals.sum5]

/-- C7: a first full sync that succeeds and writes watermark `m1`,
immediately followed by a sync call whose response holds no activity
newer than `m1`'s watermarks, returns the same five totals as the
full sync (whether the second call is served fresh or runs an
incremental sync that finds nothing new). -/
theorem no_double_count_after_full (cfg : Config) (now1 now2 : Int) (u r : String)
    (repo1 repo2 : RawRepository) (res1 res2 : SyncResult) (m1 : SyncMetadata)
    (h1 : (syncUserRepoActivity cfg now1 u r none (.ok (some repo1))).1 = .ok res1)
    (hm1 : nextState none (syncUserRepoActivity cfg now1 u r none (.ok (some repo1))) = some m1)
    (hc : ∀ c ∈ repo2.historyNodes.getD [], c.committedDate ≤ m1.lastSyncDate)
    (hp : ∀ p ∈ repo2.prNodes.getD [], jsGt p.number (jsOr0 m1.lastPRNumber) = false)
    (hi : ∀ i ∈ repo2.issueNodes.getD [], jsGt i.number (jsOr0 m1.lastIssueNumber) = false)
    (h2 : (syncUserRepoActivity cfg now2 u r (some m1) (.ok (some repo2))).1 = .ok res2) :
    totalsOfResult res2 = totalsOfResult res1 := by
  obtain ⟨m', hst, heq⟩ := sync_ok_next_totals cfg now1 u r none (.ok (some repo1)) res1 h1
  have hmm : m' = m1 := Option.some.inj (hst.symm.trans hm1)
  rw [hmm] at heq
  by_cases hfresh : now2 - m1.lastSyncDate < cfg.incrementalSyncIntervalHours * 60 * 60 * 1000
  · have hcall : syncUserRepoActivity cfg now2 u r (some m1) (.ok (some repo2)) =
        (Except.ok { commits := m1.totalItems.commits
                     pullRequests := m1.totalItems.pullRequests
                     issues := m1.totalItems.issues
                     prComments := m1.totalItems.prComments
                     issueComments := m1.totalItems.issueComments
                     isIncremental := false
                     itemsFetched := 0 },
         { queried := false, sinkWrite := none, metadataWrite := none }) := by
      simp [syncUserRepoActivity, hfresh]
    rw [hcall] at h2
    have h3 : res2 = _ := (Except.ok.inj h2).symm
    rw [h3, heq]
    rfl
  · have hcall : syncUserRepoActivity cfg now2 u r (some m1) (.ok (some repo2)) =
        performIncrementalSync now2 u r m1 (.ok (some repo2)) := by
      simp [syncUserRepoActivity, hfresh]
    rw [hcall] at h2
    have h4 := (incremental_no_new_items now2 u r m1 repo2 hc hp hi).symm.trans h2
    have h3 : res2 = _ := (Except.ok.inj h4).symm
    rw [h3, heq]
    rfl

/-- The watermark the concrete full sync over `demoRepo` writes. -/
def demoMetaFull : SyncMetadata :=
  { lastSyncDate := 100, lastCommitSha := some "0",
    lastPRNumber := some (JSNum.val 1), lastIssueNumber := some JSNum.negInf,
    totalItems := { commits := 3, pullRequests := 1, issues := 0, prComments := 2, issueComments := 0 } }

/-- Witness for C7: the concrete full sync over `demoRepo` followed,
after the interval expires, by an incremental sync whose response is
empty; the five totals are unchanged. -/
theorem no_double_count_after_full_witness :
    totalsOfResult { commits := 3, pullRequests := 1, issues := 0, prComments := 2,
                     issueComments := 0, isIncremental := true, itemsFetched := 0 } =
    totalsOfResult { commits := 3, pullRequests := 1, issues := 0, prComments := 2,
                     issueComments := 0, isIncremental := false, itemsFetched := 6 } :=
  no_double_count_after_full cfgDemo 100 14400100 "octocat" "octo/demo" demoRepo
    repoEmptyNodes _ _ demoMetaFull rfl rfl (by decide) (by decide) (by decide) rfl
